import Mathlib

/-!
Verification of the LoopiaDomainBackorder core: a shallow embedding of the
rate-limited Loopia API client (pkg/api), the per-domain retry loop and the
drop-time waiting loop (internal/dropcatch), and the trigger-instant
computation (pkg/util/time.go).

Time is modelled in milliseconds since the Unix epoch (UTC), as a natural
number; durations are naturals in milliseconds.  Remote RPC outcomes are
supplied as oracles, since the network is outside the program.
-/

namespace Loopia

/-! ## Constants (from internal/dropcatch/dropcatch.go and pkg/util/time.go) -/

/-- number of immediate retries after drop (`fastRetryCount = 3`). -/
def fastRetryCount : Nat := 3

/-- `fastRetryInterval = 100 * time.Millisecond`, in ms. -/
def fastRetryInterval : Nat := 100

/-- `initialBackoff = 1 * time.Second`, in ms. -/
def initialBackoff : Nat := 1000

/-- `maxBackoff = 5 * time.Minute`, in ms. -/
def maxBackoff : Nat := 300000

/-- `purchasingWindow = 1 * time.Hour`, in ms. -/
def purchasingWindow : Nat := 3600000

/-- `preDroplead = 100 * time.Millisecond`, in ms. -/
def preDroplead : Nat := 100

/-- `DropHourUTC = 4` (pkg/util/time.go). -/
def DropHourUTC : Nat := 4

/-- `TimeRecheckInterval = 10 * time.Minute`, in ms. -/
def TimeRecheckInterval : Nat := 600000

/-- One hour in milliseconds (`time.Hour`). -/
def msPerHour : Nat := 3600000

/-- One UTC day in milliseconds (`24 * time.Hour`). -/
def msPerDay : Nat := 86400000

/-- The hourly API quota hard-coded in `Client.Call` (60 calls per hour). -/
def hourlyQuota : Nat := 60

/-! ## The API client state (pkg/api client.go, `type Client struct`) -/

/-- State of the Loopia API client: the mutable fields of `api.Client`
(`dryRun`, `callsThisHour`, `hourStartTime`, `stopOn401`, `stopOn429`)
together with the immutable credentials. -/
structure ClientState where
  username : String
  password : String
  dryRun : Bool
  callsThisHour : Nat
  hourStartTime : Nat
  stopOn401 : Bool
  stopOn429 : Bool
  deriving Repr, DecidableEq

/-- `NewClient(username, password, dry)` at creation instant `now`
(`hourStartTime: time.Now()`). -/
def NewClient (username password : String) (dry : Bool) (now : Nat) : ClientState :=
  { username := username
    password := password
    dryRun := dry
    callsThisHour := 0
    hourStartTime := now
    stopOn401 := false
    stopOn429 := false }

/-- Error value produced by the remote RPC layer, as distinguished by
`Call`'s string comparison on `err.Error()`. -/
inductive RpcError where
  | unauthorized
  | tooManyRequests
  | other
  deriving Repr, DecidableEq

/-- Reply value of a remote call: either a plain (string) value such as
`"OK"`, or the `map[string]interface` shape returned by `getDomain`,
carrying the `reference_no` string (empty when absent or not a string). -/
inductive Reply where
  | str (s : String)
  | domainMap (ref : String)
  deriving Repr, DecidableEq

/-- Errors a `Call` can return: the hourly quota error, or a remote error
passed through. -/
inductive CallError where
  | quotaExceeded
  | rpc (e : RpcError)
  deriving Repr, DecidableEq

/-- The hour-window reset at the top of `Call`'s rate-limiting section: if
`now.Sub(c.hourStartTime) >= time.Hour`, reset `callsThisHour := 0` and
`hourStartTime := now`; otherwise leave the state alone. -/
def resetIfElapsed (c : ClientState) (now : Nat) : ClientState :=
  if msPerHour ≤ now - c.hourStartTime then
    { c with callsThisHour := 0, hourStartTime := now }
  else c

/-- `Client.Call` as a state transition at instant `now`.  `remote` is the
oracle giving the outcome of the underlying `c.rpc.Call`, used only if the
remote call is actually issued.  Returns the new client state, the result,
and whether the remote side was contacted.

Follows the source order: dry-run short-circuit; hour-window reset; quota
check (fail without increment); latch-flag check (logs a warning but
proceeds); counter increment; remote call; on error `401 Unauthorized` or
`429 Too Many Requests`, set the corresponding stop flag. -/
def Call (c : ClientState) (now : Nat) (remote : Except RpcError Reply) :
    ClientState × Except CallError Reply × Bool :=
  if c.dryRun then
    (c, Except.ok (Reply.str "OK"), false)
  else
    let c1 := resetIfElapsed c now
    if hourlyQuota ≤ c1.callsThisHour then
      (c1, Except.error CallError.quotaExceeded, false)
    else
      let c2 := { c1 with callsThisHour := c1.callsThisHour + 1 }
      match remote with
      | Except.ok r => (c2, Except.ok r, true)
      | Except.error e =>
        let c3 :=
          match e with
          | RpcError.unauthorized => { c2 with stopOn401 := true }
          | RpcError.tooManyRequests => { c2 with stopOn429 := true }
          | RpcError.other => c2
        (c3, Except.error (CallError.rpc e), true)

/-! ## The acquisition attempt (OrderDomain, PayInvoiceIfAny, Attempt) -/

/-- A remote operation actually issued on the wire, for tracing the order of
calls within one `Attempt`. -/
inductive RemoteOp where
  | orderDomain
  | getDomain
  | payInvoice (ref : String)
  deriving Repr, DecidableEq

/-- Error returned by `Client.Attempt` and its sub-steps: the early abort on
previously observed 401/429 (with the flags that triggered it), an error from
a `Call`, or the "unexpected response format from getDomain" error. -/
inductive AttemptError where
  | aborted (on401 on429 : Bool)
  | call (e : CallError)
  | badFormat
  deriving Repr, DecidableEq

/-- `Client.OrderDomain`: one `Call("orderDomain", domain, true)`; returns
the call's error, if any.  Also returns the wire trace. -/
def OrderDomain (c : ClientState) (now : Nat) (orderRes : Except RpcError Reply) :
    ClientState × Option AttemptError × List RemoteOp :=
  let r := Call c now orderRes
  let trace := if r.2.2 then [RemoteOp.orderDomain] else []
  match r.2.1 with
  | Except.error e => (r.1, some (AttemptError.call e), trace)
  | Except.ok _ => (r.1, none, trace)

/-- `Client.PayInvoiceIfAny`: `Call("getDomain", domain)`; on error, return
it; if the reply is not a map, fail with the format error; extract
`reference_no` (empty string when absent); when empty, succeed without
paying; otherwise `Call("payInvoiceUsingCredits", ref)` and return its
outcome.  `getRes` and `payRes` are the oracles for the two remote calls. -/
def PayInvoiceIfAny (c : ClientState) (now : Nat)
    (getRes payRes : Except RpcError Reply) :
    ClientState × Option AttemptError × List RemoteOp :=
  let r1 := Call c now getRes
  let t1 : List RemoteOp := if r1.2.2 then [RemoteOp.getDomain] else []
  match r1.2.1 with
  | Except.error e => (r1.1, some (AttemptError.call e), t1)
  | Except.ok rep =>
    match rep with
    | Reply.str _ => (r1.1, some AttemptError.badFormat, t1)
    | Reply.domainMap ref =>
      if ref = "" then
        (r1.1, none, t1)
      else
        let r2 := Call r1.1 now payRes
        let t2 := t1 ++ (if r2.2.2 then [RemoteOp.payInvoice ref] else [])
        match r2.2.1 with
        | Except.error e => (r2.1, some (AttemptError.call e), t2)
        | Except.ok _ => (r2.1, none, t2)

/-- `Client.Attempt`: abort immediately (no remote calls) when `stopOn401`
or `stopOn429` is set; otherwise `OrderDomain`, returning its failure
immediately, then `PayInvoiceIfAny`. -/
def Attempt (c : ClientState) (now : Nat)
    (orderRes getRes payRes : Except RpcError Reply) :
    ClientState × Option AttemptError × List RemoteOp :=
  if c.stopOn401 ∨ c.stopOn429 then
    (c, some (AttemptError.aborted c.stopOn401 c.stopOn429), [])
  else
    let r1 := OrderDomain c now orderRes
    match r1.2.1 with
    | some e => (r1.1, some e, r1.2.2)
    | none =>
      let r2 := PayInvoiceIfAny r1.1 now getRes payRes
      (r2.1, r2.2.1, r1.2.2 ++ r2.2.2)

/-! ## The per-domain retry loop (internal/dropcatch, AttemptDomainRegistration) -/

/-- `backoff *= 2; if backoff > maxBackoff { backoff = maxBackoff }`, with
the `backoff == 0` initialisation branch. -/
def nextBackoff (b : Nat) : Nat :=
  if b = 0 then initialBackoff else min (b * 2) maxBackoff

/-- The delay chosen after a failed attempt number `attemptNo`, given the
current `backoff` variable: the fast interval inside the fast-retry window,
otherwise the advanced backoff.  Returns the delay and the new `backoff`. -/
def delayFor (attemptNo b : Nat) : Nat × Nat :=
  if attemptNo ≤ fastRetryCount then (fastRetryInterval, b)
  else
    let b2 := nextBackoff b
    (b2, b2)

/-- The value of the `backoff` variable after `n` consecutive failed
attempts (it starts at 0, meaning the fast-retry window). -/
def backoffAfter : Nat → Nat
  | 0 => 0
  | n + 1 => (delayFor (n + 1) (backoffAfter n)).2

/-- The delay computed after failed attempt number `n` (n ≥ 1) in a run of
consecutive failures. -/
def delayAfter (n : Nat) : Nat :=
  (delayFor n (backoffAfter (n - 1))).1

/-- The single `domain.Result` emitted by the retry loop: `Success` plus
whether the error was the context's deadline error. -/
inductive GoResult where
  | success
  | ctxFailure
  deriving Repr, DecidableEq

/-- `AttemptDomainRegistration` modelled with fuel.  `deadline` is the
context's absolute deadline; `dur n` is the wall-clock duration of attempt
number `n`; `sgn n` says whether attempt `n` returns nil.  The loop: observe
the context at the iteration boundary (done iff `deadline ≤ now`), emitting
one failure result and stopping; otherwise run attempt `attemptNo+1`; on
success emit one success result and stop; on failure compute the next delay,
sleep for the delay minus the attempt's duration (floored at zero), and
iterate.  Returns `none` on fuel exhaustion, otherwise the list of emitted
results together with the start instants of all attempts that were run. -/
def runLoop (deadline : Nat) (dur : Nat → Nat) (sgn : Nat → Bool) :
    Nat → Nat → Nat → Nat → Option (List GoResult × List Nat)
  | 0, _, _, _ => none
  | fuel + 1, now, attemptNo, backoff =>
    if deadline ≤ now then some ([GoResult.ctxFailure], [])
    else
      let n := attemptNo + 1
      let d := dur n
      if sgn n then some ([GoResult.success], [now])
      else
        let p := delayFor n backoff
        let sleep := p.1 - d
        match runLoop deadline dur sgn fuel (now + d + sleep) n p.2 with
        | none => none
        | some (rs, ss) => some (rs, now :: ss)

/-! ## Trigger instant and waiting loop (pkg/util/time.go, dropcatch Run) -/

/-- Milliseconds into the UTC day of the 04:00 UTC drop instant. -/
def dropOffsetMs : Nat := DropHourUTC * msPerHour

/-- `util.NextDrop`: the next instant at 04:00 UTC strictly after `now`
(today's 04:00 if `now` is before it, otherwise tomorrow's). -/
def NextDrop (now : Nat) : Nat :=
  let drop := now / msPerDay * msPerDay + dropOffsetMs
  if now < drop then drop else drop + msPerDay

/-- The waiting loop of `dropcatch.Run` (time recheck loop plus the final
precise sleep), modelled with fuel.  Each iteration recomputes the drop and
`firstShot` from the current instant; if the remaining wait is below
`TimeRecheckInterval` (or non-positive) the loop breaks and the final sleep
covers exactly the remaining time; otherwise it sleeps for the minimum of
the wait and the recheck interval and loops.  Returns the list of sleep
durations performed and the instant at which attempts start. -/
def waitPhase (deadlineFuel : Nat) (now : Nat) : Option (List Nat × Nat) :=
  match deadlineFuel with
  | 0 => none
  | fuel + 1 =>
    let firstShot := NextDrop now - preDroplead
    let wait := firstShot - now
    if wait < TimeRecheckInterval then
      if 0 < wait then some ([wait], now + wait) else some ([], now)
    else
      let sleepTime := min wait TimeRecheckInterval
      match waitPhase fuel (now + sleepTime) with
      | none => none
      | some p => some (sleepTime :: p.1, p.2)

/-- The wait portion of `dropcatch.Run`: with the `-now` flag, start
immediately with no sleeping; otherwise, if `firstShot` is not in the
future, also start immediately; otherwise run the recheck loop. -/
def RunWait (startNow : Bool) (fuel now : Nat) : Option (List Nat × Nat) :=
  if startNow then some ([], now)
  else if NextDrop now - preDroplead - now = 0 then some ([], now)
  else waitPhase fuel now

/-! ## Helper lemmas -/

/-- The hour-window reset only touches `callsThisHour` and `hourStartTime`. -/
theorem resetIfElapsed_frame (c : ClientState) (now : Nat) :
    (resetIfElapsed c now).username = c.username ∧
    (resetIfElapsed c now).password = c.password ∧
    (resetIfElapsed c now).dryRun = c.dryRun ∧
    (resetIfElapsed c now).stopOn401 = c.stopOn401 ∧
    (resetIfElapsed c now).stopOn429 = c.stopOn429 := by
  unfold resetIfElapsed
  split <;> simp

/-- `Call` never clears `stopOn401`. -/
theorem Call_stopOn401_mono (c : ClientState) (now : Nat) (r : Except RpcError Reply)
    (h : c.stopOn401 = true) : (Call c now r).1.stopOn401 = true := by
  unfold Call resetIfElapsed
  rcases r with _ | e
  · repeat' split <;> simp_all
  · cases e <;> repeat' split <;> simp_all

/-- `Call` never clears `stopOn429`. -/
theorem Call_stopOn429_mono (c : ClientState) (now : Nat) (r : Except RpcError Reply)
    (h : c.stopOn429 = true) : (Call c now r).1.stopOn429 = true := by
  unfold Call resetIfElapsed
  rcases r with _ | e
  · repeat' split <;> simp_all
  · cases e <;> repeat' split <;> simp_all

/-- `PayInvoiceIfAny` never clears `stopOn401`. -/
theorem PayInvoiceIfAny_stopOn401_mono (c : ClientState) (now : Nat)
    (g p : Except RpcError Reply) (h : c.stopOn401 = true) :
    (PayInvoiceIfAny c now g p).1.stopOn401 = true := by
  unfold PayInvoiceIfAny
  have h1 := Call_stopOn401_mono c now g h
  rcases hE : Call c now g with ⟨c1, res1, made1⟩
  rw [hE] at h1
  have h2 := Call_stopOn401_mono c1 now p h1
  rcases hF : Call c1 now p with ⟨c2, res2, made2⟩
  rw [hF] at h2
  simp only [hE, hF]
  rcases res1 with e | rep
  · simpa using h1
  · rcases rep with s | ref
    · simpa using h1
    · by_cases hr : ref = "" <;> rcases res2 with e2 | v2 <;> simp_all

/-- `PayInvoiceIfAny` never clears `stopOn429`. -/
theorem PayInvoiceIfAny_stopOn429_mono (c : ClientState) (now : Nat)
    (g p : Except RpcError Reply) (h : c.stopOn429 = true) :
    (PayInvoiceIfAny c now g p).1.stopOn429 = true := by
  unfold PayInvoiceIfAny
  have h1 := Call_stopOn429_mono c now g h
  rcases hE : Call c now g with ⟨c1, res1, made1⟩
  rw [hE] at h1
  have h2 := Call_stopOn429_mono c1 now p h1
  rcases hF : Call c1 now p with ⟨c2, res2, made2⟩
  rw [hF] at h2
  simp only [hE, hF]
  rcases res1 with e | rep
  · simpa using h1
  · rcases rep with s | ref
    · simpa using h1
    · by_cases hr : ref = "" <;> rcases res2 with e2 | v2 <;> simp_all

/-- `Attempt` never clears `stopOn401`. -/
theorem Attempt_stopOn401_mono (c : ClientState) (now : Nat)
    (o g p : Except RpcError Reply) (h : c.stopOn401 = true) :
    (Attempt c now o g p).1.stopOn401 = true := by
  unfold Attempt OrderDomain
  have h1 := Call_stopOn401_mono c now o h
  repeat' split <;> simp_all [PayInvoiceIfAny_stopOn401_mono _ now g p h1]

/-- `Attempt` never clears `stopOn429`. -/
theorem Attempt_stopOn429_mono (c : ClientState) (now : Nat)
    (o g p : Except RpcError Reply) (h : c.stopOn429 = true) :
    (Attempt c now o g p).1.stopOn429 = true := by
  unfold Attempt OrderDomain
  have h1 := Call_stopOn429_mono c now o h
  repeat' split <;> simp_all [PayInvoiceIfAny_stopOn429_mono _ now g p h1]

/-- A `Call` either short-circuits in dry-run mode (returning `"OK"` and
touching nothing), fails on quota without contacting the remote side, or
contacts the remote side and passes its outcome through. -/
theorem Call_shape (c : ClientState) (now : Nat) (r : Except RpcError Reply) :
    (c.dryRun = true ∧ Call c now r = (c, Except.ok (Reply.str "OK"), false)) ∨
    ((Call c now r).2.1 = Except.error CallError.quotaExceeded ∧
      (Call c now r).2.2 = false) ∨
    ((Call c now r).2.1 = Except.mapError CallError.rpc r ∧
      (Call c now r).2.2 = true) := by
  by_cases hd : c.dryRun
  · left
    refine ⟨hd, ?_⟩
    unfold Call
    simp [hd]
  · right
    unfold Call
    simp only [hd, if_false, Bool.false_eq_true]
    split
    · simp
    · right
      rcases r with e | v
      · cases e <;> simp [Except.mapError]
      · simp [Except.mapError]

/-- A `Call` preserves the `dryRun` flag. -/
theorem Call_dryRun_pres (c : ClientState) (now : Nat) (r : Except RpcError Reply) :
    (Call c now r).1.dryRun = c.dryRun := by
  unfold Call resetIfElapsed
  rcases r with e | v
  · cases e <;> repeat' split <;> simp_all
  · repeat' split <;> simp_all

/-- In dry-run mode a `Call` returns `"OK"`, contacts nothing, changes
nothing. -/
theorem Call_dry_eq (c : ClientState) (now : Nat) (r : Except RpcError Reply)
    (h : c.dryRun = true) :
    Call c now r = (c, Except.ok (Reply.str "OK"), false) := by
  unfold Call
  simp [h]

/-- If a `Call` reached the wire, the client is not in dry-run mode. -/
theorem Call_contacted_not_dry (c : ClientState) (now : Nat)
    (r : Except RpcError Reply) (h : (Call c now r).2.2 = true) :
    c.dryRun = false := by
  cases hd : c.dryRun
  · rfl
  · rw [Call_dry_eq c now r hd] at h
    simp at h

/-- If a `Call` returned a `getDomain`-shaped reply, the remote side was
really contacted (dry-run and quota refusals cannot produce that shape). -/
theorem Call_ok_domainMap (c : ClientState) (now : Nat)
    (g : Except RpcError Reply) (ref : String)
    (h : (Call c now g).2.1 = Except.ok (Reply.domainMap ref)) :
    (Call c now g).2.2 = true := by
  rcases Call_shape c now g with ⟨_, hc⟩ | ⟨hc, _⟩ | ⟨_, hm⟩
  · rw [hc] at h
    simp at h
  · rw [hc] at h
    exact absurd h (by simp)
  · exact hm

/-- The wire trace of `OrderDomain` is empty or the single claim call. -/
theorem OrderDomain_trace (c : ClientState) (now : Nat) (o : Except RpcError Reply) :
    (OrderDomain c now o).2.2 = [] ∨
    (OrderDomain c now o).2.2 = [RemoteOp.orderDomain] := by
  unfold OrderDomain
  rcases hE : Call c now o with ⟨c1, res, made⟩
  rcases res with e | v <;> cases made <;> simp

/-- If `OrderDomain` issued no wire call yet reported success, the client
is in dry-run mode, and the client state is unchanged. -/
theorem OrderDomain_silent_ok (c : ClientState) (now : Nat)
    (o : Except RpcError Reply) (ht : (OrderDomain c now o).2.2 = [])
    (he : (OrderDomain c now o).2.1 = none) :
    c.dryRun = true ∧ (OrderDomain c now o).1 = c := by
  have hsh := Call_shape c now o
  unfold OrderDomain at ht he ⊢
  rcases hE : Call c now o with ⟨c1, res, made⟩
  rw [hE] at ht he hsh
  rcases res with e | v
  · simp at he
  · cases made
    · rcases hsh with ⟨hd, hc⟩ | ⟨hc, _⟩ | ⟨_, hm⟩
      · simp_all
      · simp at hc
      · simp at hm
    · simp at ht

/-- Behaviour of `PayInvoiceIfAny` relevant to the two-step ordering: it
never issues the claim call; a settlement call is only issued for a
non-empty reference present in a successful status reply, and always after
the status call itself appears on the wire; an empty reference is a no-op
success; in dry-run mode nothing reaches the wire. -/
theorem PayInvoiceIfAny_spec (c : ClientState) (now : Nat)
    (g p : Except RpcError Reply) :
    RemoteOp.orderDomain ∉ (PayInvoiceIfAny c now g p).2.2 ∧
    (∀ ref, RemoteOp.payInvoice ref ∈ (PayInvoiceIfAny c now g p).2.2 →
      ref ≠ "" ∧ (Call c now g).2.1 = Except.ok (Reply.domainMap ref) ∧
      RemoteOp.getDomain ∈ (PayInvoiceIfAny c now g p).2.2) ∧
    ((Call c now g).2.1 = Except.ok (Reply.domainMap "") →
      (PayInvoiceIfAny c now g p).2.1 = none ∧
      ∀ ref, RemoteOp.payInvoice ref ∉ (PayInvoiceIfAny c now g p).2.2) ∧
    (c.dryRun = true → (PayInvoiceIfAny c now g p).2.2 = []) := by
  unfold PayInvoiceIfAny
  rcases hE : Call c now g with ⟨c1, res1, made1⟩
  rcases res1 with e | rep
  · cases made1
    · simp
    · have hnd : c.dryRun = false := Call_contacted_not_dry c now g (by rw [hE])
      simp [hnd]
  · rcases rep with s | ref
    · cases made1
      · simp
      · have hnd : c.dryRun = false := Call_contacted_not_dry c now g (by rw [hE])
        simp [hnd]
    · have hmade : made1 = true := by
        have hcm := Call_ok_domainMap c now g ref (by rw [hE])
        rw [hE] at hcm
        simpa using hcm
      subst hmade
      have hnd : c.dryRun = false := Call_contacted_not_dry c now g (by rw [hE])
      by_cases hr : ref = ""
      · subst hr
        simp [hnd]
      · dsimp only
        rcases hF : Call c1 now p with ⟨c2, res2, made2⟩
        rcases res2 with e2 | v2 <;> cases made2 <;>
          simp [hr, hnd, List.mem_append]

/-- Claim C6: within one acquisition attempt (on a not-yet-latched client),
the claim call comes first on the wire; a claim failure is returned
immediately with no status or settlement call; the status query appears on
the wire only when the claim step succeeded; a settlement call is issued
only for a non-empty pending reference present in the status reply, after
both the claim and the status call, and only when the claim step succeeded;
and an empty reference makes the settlement step a no-op success. -/
theorem attempt_two_step (c : ClientState) (now : Nat)
    (o g p : Except RpcError Reply)
    (h401 : c.stopOn401 = false) (h429 : c.stopOn429 = false) :
    ((Attempt c now o g p).2.2 ≠ [] →
      (Attempt c now o g p).2.2.head? = some RemoteOp.orderDomain) ∧
    (∀ e, (OrderDomain c now o).2.1 = some e →
      (Attempt c now o g p).2.1 = some e ∧
      RemoteOp.getDomain ∉ (Attempt c now o g p).2.2 ∧
      ∀ ref, RemoteOp.payInvoice ref ∉ (Attempt c now o g p).2.2) ∧
    (RemoteOp.getDomain ∈ (Attempt c now o g p).2.2 →
      (OrderDomain c now o).2.1 = none) ∧
    (∀ ref, RemoteOp.payInvoice ref ∈ (Attempt c now o g p).2.2 →
      ref ≠ "" ∧
      (OrderDomain c now o).2.1 = none ∧
      (Call (OrderDomain c now o).1 now g).2.1 =
        Except.ok (Reply.domainMap ref) ∧
      RemoteOp.getDomain ∈ (Attempt c now o g p).2.2) ∧
    ((OrderDomain c now o).2.1 = none →
      (Call (OrderDomain c now o).1 now g).2.1 =
        Except.ok (Reply.domainMap "") →
      (Attempt c now o g p).2.1 = none ∧
      ∀ ref, RemoteOp.payInvoice ref ∉ (Attempt c now o g p).2.2) := by
  have hA : Attempt c now o g p =
      (match (OrderDomain c now o).2.1 with
        | some e => ((OrderDomain c now o).1, some e, (OrderDomain c now o).2.2)
        | none =>
          ((PayInvoiceIfAny (OrderDomain c now o).1 now g p).1,
            (PayInvoiceIfAny (OrderDomain c now o).1 now g p).2.1,
            (OrderDomain c now o).2.2 ++
              (PayInvoiceIfAny (OrderDomain c now o).1 now g p).2.2)) := by
    unfold Attempt
    rw [if_neg (by simp [h401, h429])]
  have hOt := OrderDomain_trace c now o
  have hP := PayInvoiceIfAny_spec (OrderDomain c now o).1 now g p
  rcases hO : (OrderDomain c now o).2.1 with _ | e
  · rw [hO] at hA
    simp only [] at hA
    refine ⟨?_, ?_, ?_, ?_, ?_⟩
    · intro hne
      rcases hOt with ht | ht
      · rcases OrderDomain_silent_ok c now o ht hO with ⟨hd, hcc⟩
        have hd1 : (OrderDomain c now o).1.dryRun = true := by rw [hcc]; exact hd
        have : (PayInvoiceIfAny (OrderDomain c now o).1 now g p).2.2 = [] :=
          hP.2.2.2 hd1
        rw [hA] at hne
        simp [ht, this] at hne
      · rw [hA]
        simp [ht]
    · intro e he
      exact absurd he (by simp)
    · intro _
      rfl
    · intro ref hm
      rw [hA] at hm
      simp only [List.mem_append] at hm
      rcases hm with hm | hm
      · exact absurd hm (by rcases hOt with ht | ht <;> simp [ht])
      · rcases hP.2.1 ref hm with ⟨hr, hc, hg⟩
        refine ⟨hr, rfl, hc, ?_⟩
        rw [hA]
        simp only [List.mem_append]
        exact Or.inr hg
    · intro _ hg
      rcases hP.2.2.1 hg with ⟨hres, hnp⟩
      constructor
      · rw [hA]
        exact hres
      · intro ref
        rw [hA]
        simp only [List.mem_append]
        rintro (hm | hm)
        · exact absurd hm (by rcases hOt with ht | ht <;> simp [ht])
        · exact hnp ref hm
  · rw [hO] at hA
    simp only [] at hA
    refine ⟨?_, ?_, ?_, ?_, ?_⟩
    · intro hne
      rw [hA] at hne ⊢
      rcases hOt with ht | ht
      · simp [ht] at hne
      · simp [ht]
    · intro e' he'
      have he2 : e' = e := by
        simpa using he'.symm
      subst he2
      refine ⟨by rw [hA], ?_, ?_⟩
      · rw [hA]
        rcases hOt with ht | ht <;> simp [ht]
      · intro ref
        rw [hA]
        rcases hOt with ht | ht <;> simp [ht]
    · intro hg
      rw [hA] at hg
      exact absurd hg (by rcases hOt with ht | ht <;> simp [ht])
    · intro ref hm
      rw [hA] at hm
      exact absurd hm (by rcases hOt with ht | ht <;> simp [ht])
    · intro hnone
      exact absurd hnone (by simp)

/-- Witness for C6: a fresh client whose claim succeeds, whose status reply
carries reference `"R1"`, and whose settlement succeeds, issues exactly the
three calls in order and succeeds. -/
theorem attempt_two_step_witness :
    (Attempt (NewClient "u" "p" false 0) 0 (Except.ok (Reply.str "OK"))
        (Except.ok (Reply.domainMap "R1")) (Except.ok (Reply.str "OK"))).2.2.head? =
      some RemoteOp.orderDomain :=
  (attempt_two_step (NewClient "u" "p" false 0) 0 (Except.ok (Reply.str "OK"))
    (Except.ok (Reply.domainMap "R1")) (Except.ok (Reply.str "OK")) rfl rfl).1
    (by decide)

/-! ## Claim theorems: the client -/

/-- Claim C10: when the client is constructed in dry-run mode, every `Call`
returns `"OK"` immediately, contacts no remote side, and leaves the entire
client state (counter, window, latch flags) unchanged, regardless of the
instant and of what the remote side would have answered; in particular no
quota can be exhausted and no latch can engage in dry-run mode. -/
theorem dryRun_call_is_noop (c : ClientState) (now : Nat)
    (remote : Except RpcError Reply) (h : c.dryRun = true) :
    Call c now remote = (c, Except.ok (Reply.str "OK"), false) := by
  unfold Call
  simp [h]

/-- Witness for C10: a freshly constructed dry-run client at instant 5,
facing a remote that would reject with 401. -/
theorem dryRun_call_is_noop_witness :
    Call (NewClient "u" "p" true 0) 5 (Except.error RpcError.unauthorized) =
      (NewClient "u" "p" true 0, Except.ok (Reply.str "OK"), false) :=
  dryRun_call_is_noop (NewClient "u" "p" true 0) 5 (Except.error RpcError.unauthorized) rfl

/-- Claim C3: for a non-dry-run client, if `callsThisHour` has reached the
hourly quota (60) and the hour window has not elapsed, `Call` fails with
the quota error, does not contact the remote side, and leaves the state
(in particular the counter) unchanged; otherwise the counter is exactly one
more than its post-reset value and the remote call is performed. -/
theorem call_quota_behaviour (c : ClientState) (now : Nat)
    (remote : Except RpcError Reply) (hdry : c.dryRun = false) :
    (now - c.hourStartTime < msPerHour → hourlyQuota ≤ c.callsThisHour →
      Call c now remote = (c, Except.error CallError.quotaExceeded, false)) ∧
    ((resetIfElapsed c now).callsThisHour < hourlyQuota →
      (Call c now remote).1.callsThisHour = (resetIfElapsed c now).callsThisHour + 1 ∧
      (Call c now remote).2.2 = true) := by
  constructor
  · intro hwin hq
    have hr : resetIfElapsed c now = c := by
      unfold resetIfElapsed
      rw [if_neg]
      omega
    unfold Call
    rw [if_neg (by simp [hdry]), hr, if_pos hq]
  · intro hq
    unfold Call
    rw [if_neg (by simp [hdry]), if_neg (by omega)]
    rcases remote with e | v
    · cases e <;> simp
    · simp

/-- Witness for C3: a client that has used its 60 calls ten minutes into
the hour is refused without an increment, and a fresh client's first call
goes through, incrementing the counter from 0 to 1. -/
theorem call_quota_behaviour_witness :
    Call { NewClient "u" "p" false 0 with callsThisHour := 60 } 600000
        (Except.ok (Reply.str "OK")) =
      ({ NewClient "u" "p" false 0 with callsThisHour := 60 },
        Except.error CallError.quotaExceeded, false) ∧
    (Call (NewClient "u" "p" false 0) 600000
        (Except.ok (Reply.str "OK"))).1.callsThisHour = 1 := by
  constructor
  · exact (call_quota_behaviour { NewClient "u" "p" false 0 with callsThisHour := 60 }
      600000 (Except.ok (Reply.str "OK")) rfl).1 (by decide) (by decide)
  · have h := (call_quota_behaviour (NewClient "u" "p" false 0)
      600000 (Except.ok (Reply.str "OK")) rfl).2 (by decide)
    exact h.1.trans (by decide)

/-- A reference latched client: fresh non-dry client that has observed a
401 Unauthorized. -/
def latched401Client : ClientState :=
  { NewClient "user" "pass" false 0 with stopOn401 := true }

/-- Counterexample to claim C1 as stated: with the latch engaged
(`stopOn401 = true`), a `Call` still contacts the remote side and returns
the remote's answer — it is not rejected with a latch error.  (The source
logs a warning and proceeds: "We'll check these flags but still allow the
call to proceed".) -/
theorem call_contacts_remote_despite_latch :
    (Call latched401Client 0 (Except.ok (Reply.str "OK"))).2.2 = true ∧
    (Call latched401Client 0 (Except.ok (Reply.str "OK"))).2.1 =
      Except.ok (Reply.str "OK") :=
  ⟨rfl, rfl⟩

/-- Claim C1 (amended): the low-level `Call` proceeds despite the latch;
fail-fast lives one level up: once either stop flag is set, every
`Attempt` on that client instance is rejected immediately with the abort
error, contacting no remote side and leaving the state (latch included)
unchanged, at every instant — hence for the remainder of the process, even
after an hour-window reset. -/
theorem attempt_fail_fast_when_latched (c : ClientState) (now : Nat)
    (o g p : Except RpcError Reply)
    (h : c.stopOn401 = true ∨ c.stopOn429 = true) :
    Attempt c now o g p =
      (c, some (AttemptError.aborted c.stopOn401 c.stopOn429), []) := by
  unfold Attempt
  rw [if_pos]
  rcases h with h | h <;> simp [h]

/-- Witness for C1 (amended): a latched client two hours after its window
started (so the hourly reset would have fired) still aborts the attempt. -/
theorem attempt_fail_fast_when_latched_witness :
    Attempt latched401Client 7200000 (Except.ok (Reply.str "OK"))
        (Except.ok (Reply.domainMap "")) (Except.ok (Reply.str "OK")) =
      (latched401Client, some (AttemptError.aborted true false), []) :=
  attempt_fail_fast_when_latched latched401Client 7200000
    (Except.ok (Reply.str "OK")) (Except.ok (Reply.domainMap ""))
    (Except.ok (Reply.str "OK")) (Or.inl rfl)

/-- Claim C9: the latch is one-way.  Once a stop flag is true it stays true
through any `Call` and any `Attempt` (whatever the instant and the remote's
answers), and the hour-window reset touches only `callsThisHour` and
`hourStartTime`, leaving the latch flags (and the other fields) as they
were. -/
theorem latch_one_way (c : ClientState) (now : Nat)
    (o g p : Except RpcError Reply) :
    (c.stopOn401 = true → (Call c now o).1.stopOn401 = true) ∧
    (c.stopOn429 = true → (Call c now o).1.stopOn429 = true) ∧
    (c.stopOn401 = true → (Attempt c now o g p).1.stopOn401 = true) ∧
    (c.stopOn429 = true → (Attempt c now o g p).1.stopOn429 = true) ∧
    (resetIfElapsed c now).stopOn401 = c.stopOn401 ∧
    (resetIfElapsed c now).stopOn429 = c.stopOn429 ∧
    (resetIfElapsed c now).dryRun = c.dryRun ∧
    (resetIfElapsed c now).username = c.username ∧
    (resetIfElapsed c now).password = c.password := by
  refine ⟨Call_stopOn401_mono c now o, Call_stopOn429_mono c now o,
    Attempt_stopOn401_mono c now o g p, Attempt_stopOn429_mono c now o g p,
    ?_, ?_, ?_, ?_, ?_⟩
  · exact (resetIfElapsed_frame c now).2.2.2.1
  · exact (resetIfElapsed_frame c now).2.2.2.2
  · exact (resetIfElapsed_frame c now).2.2.1
  · exact (resetIfElapsed_frame c now).1
  · exact (resetIfElapsed_frame c now).2.1

/-- Witness for C9: a latched (401) client that makes a failing remote call
two hours later (across a window reset) still has the latch set
afterwards, for both `Call` and `Attempt`. -/
theorem latch_one_way_witness :
    (Call latched401Client 7200000 (Except.error RpcError.other)).1.stopOn401 = true ∧
    (Attempt latched401Client 7200000 (Except.error RpcError.other)
      (Except.ok (Reply.domainMap "")) (Except.ok (Reply.str "OK"))).1.stopOn401 = true := by
  refine ⟨(latch_one_way latched401Client 7200000 (Except.error RpcError.other)
    (Except.ok (Reply.domainMap "")) (Except.ok (Reply.str "OK"))).1 rfl, ?_⟩
  exact (latch_one_way latched401Client 7200000 (Except.error RpcError.other)
    (Except.ok (Reply.domainMap "")) (Except.ok (Reply.str "OK"))).2.2.1 rfl

/-! ## Claim theorems: the retry delay schedule -/

/-- Doubling a capped value and re-capping is the same as capping the
doubled uncapped value. -/
theorem min_double_cap (a cap : Nat) : min (min a cap * 2) cap = min (a * 2) cap := by
  omega

/-- After the fast-retry window, `backoffAfter` follows the closed form
`min (initialBackoff * 2 ^ (k - 1)) maxBackoff`. -/
theorem backoffAfter_closed (k : Nat) (hk : 1 ≤ k) :
    backoffAfter (fastRetryCount + k) =
      min (initialBackoff * 2 ^ (k - 1)) maxBackoff := by
  induction k with
  | zero => omega
  | succ n ih =>
    cases n with
    | zero => decide
    | succ m =>
      have ih' := ih (by omega)
      have hidx : fastRetryCount + (m + 2) = (fastRetryCount + (m + 1)) + 1 := by
        omega
      rw [hidx]
      rw [backoffAfter]
      rw [ih']
      unfold delayFor
      rw [if_neg (by omega)]
      have hne : min (initialBackoff * 2 ^ (m + 1 - 1)) maxBackoff ≠ 0 := by
        have h2 : 0 < 2 ^ (m + 1 - 1) := Nat.pos_pow_of_pos _ (by norm_num)
        have : 0 < initialBackoff * 2 ^ (m + 1 - 1) :=
          Nat.mul_pos (by norm_num [initialBackoff]) h2
        have hcap : 0 < maxBackoff := by norm_num [maxBackoff]
        omega
      show nextBackoff (min (initialBackoff * 2 ^ (m + 1 - 1)) maxBackoff) = _
      unfold nextBackoff
      rw [if_neg hne]
      rw [min_double_cap]
      congr 1
      have : m + 2 - 1 = (m + 1 - 1) + 1 := by omega
      rw [this, pow_succ]
      ring

/-- Past the fast-retry window the computed delay is exactly the advanced
backoff value. -/
theorem delayAfter_eq_backoffAfter (k : Nat) (hk : 1 ≤ k) :
    delayAfter (fastRetryCount + k) = backoffAfter (fastRetryCount + k) := by
  have hidx : fastRetryCount + k = (fastRetryCount + (k - 1)) + 1 := by omega
  rw [hidx]
  unfold delayAfter
  rw [Nat.add_sub_cancel]
  conv_rhs => rw [backoffAfter]
  unfold delayFor
  rw [if_neg (by omega)]

/-- Claim C2: after every failed attempt, the computed delay is the fixed
fast interval while the attempt number is at most `fastRetryCount` (3), and
for attempt number `fastRetryCount + k` (k ≥ 1) it is
`min (initialBackoff * 2 ^ (k - 1)) maxBackoff` (1 s doubling, capped at
5 min); the cap is sticky: once a delay equals `maxBackoff`, every later
delay does too. -/
theorem retry_delay_schedule (n k j : Nat) :
    (1 ≤ n → n ≤ fastRetryCount → delayAfter n = fastRetryInterval) ∧
    (1 ≤ k → delayAfter (fastRetryCount + k) =
      min (initialBackoff * 2 ^ (k - 1)) maxBackoff) ∧
    (1 ≤ k → k ≤ j → delayAfter (fastRetryCount + k) = maxBackoff →
      delayAfter (fastRetryCount + j) = maxBackoff) := by
  have hclosed : ∀ i, 1 ≤ i → delayAfter (fastRetryCount + i) =
      min (initialBackoff * 2 ^ (i - 1)) maxBackoff := by
    intro i hi
    rw [delayAfter_eq_backoffAfter i hi, backoffAfter_closed i hi]
  refine ⟨?_, hclosed k, ?_⟩
  · intro h1 h3
    unfold delayAfter delayFor
    rw [if_pos h3]
  · intro hk hkj hcap
    rw [hclosed k hk] at hcap
    rw [hclosed j (by omega)]
    have hmono : 2 ^ (k - 1) ≤ 2 ^ (j - 1) :=
      Nat.pow_le_pow_right (by norm_num) (by omega)
    have : maxBackoff ≤ initialBackoff * 2 ^ (k - 1) := by omega
    have : initialBackoff * 2 ^ (k - 1) ≤ initialBackoff * 2 ^ (j - 1) :=
      Nat.mul_le_mul_left _ hmono
    omega

/-- Witness for C2: the delay after failed attempt 2 is the fast interval;
after attempt 4 (k = 1) it is the initial backoff, and after attempt 13
(k = 10) the cap has been reached. -/
theorem retry_delay_schedule_witness :
    delayAfter 2 = fastRetryInterval ∧
    delayAfter (fastRetryCount + 1) = min (initialBackoff * 2 ^ 0) maxBackoff ∧
    delayAfter (fastRetryCount + 10) = maxBackoff := by
  refine ⟨(retry_delay_schedule 2 1 1).1 (by decide) (by decide),
    (retry_delay_schedule 2 1 1).2.1 (by decide), ?_⟩
  have h := (retry_delay_schedule 2 10 10).2.1 (by decide)
  rw [h]
  decide

/-! ## Claim theorems: the trigger instant -/

/-- Claim C7: `NextDrop now` is the next occurrence of 04:00 UTC strictly
after `now`: it is strictly later than `now`, lies at the 04:00 UTC offset
within its day, and is the least such instant; and when `now` is at or past
today's 04:00 UTC occurrence, it is tomorrow's occurrence. -/
theorem nextDrop_spec (now : Nat) :
    now < NextDrop now ∧
    NextDrop now % msPerDay = dropOffsetMs ∧
    (∀ t, now < t → t % msPerDay = dropOffsetMs → NextDrop now ≤ t) ∧
    (now / msPerDay * msPerDay + dropOffsetMs ≤ now →
      NextDrop now = now / msPerDay * msPerDay + dropOffsetMs + msPerDay) := by
  simp only [NextDrop, dropOffsetMs, DropHourUTC, msPerHour, msPerDay]
  refine ⟨?_, ?_, ?_, ?_⟩
  · split <;> omega
  · split <;> omega
  · intro t ht hmod
    split <;> omega
  · intro h
    split <;> omega

/-- Witness for C7: at exactly 04:00 UTC on the epoch day, the next drop is
04:00 UTC the following day. -/
theorem nextDrop_spec_witness :
    14400000 < NextDrop 14400000 ∧ NextDrop 14400000 ≤ 100800000 :=
  ⟨(nextDrop_spec 14400000).1,
    (nextDrop_spec 14400000).2.2.1 100800000 (by decide) (by decide)⟩

/-! ## Claim theorems: the per-domain retry loop -/

/-- Every delay the loop computes is positive, so wall-clock time advances
by at least one unit per failed iteration. -/
theorem delayFor_pos (n b : Nat) : 1 ≤ (delayFor n b).1 := by
  unfold delayFor nextBackoff
  split
  · simp [fastRetryInterval]
  · dsimp only
    split
    · simp [initialBackoff]
    · have h : maxBackoff = 300000 := rfl
      omega

/-- Generalised single-result property of the retry loop, for an arbitrary
starting attempt counter `a`: whenever the loop terminates it has emitted
exactly one result; a success result means the last attempt run (number
`a + ss.length`) succeeded and all earlier ones failed; a failure result
means every attempt run failed. -/
theorem runLoop_spec (deadline : Nat) (dur : Nat → Nat) (sgn : Nat → Bool) :
    ∀ fuel now a b rs ss,
      runLoop deadline dur sgn fuel now a b = some (rs, ss) →
      rs.length = 1 ∧
      (rs = [GoResult.success] → sgn (a + ss.length) = true ∧
        ∀ i, a < i → i < a + ss.length → sgn i = false) ∧
      (rs = [GoResult.ctxFailure] →
        ∀ i, a < i → i ≤ a + ss.length → sgn i = false) := by
  intro fuel
  induction fuel with
  | zero =>
    intro now a b rs ss h
    simp [runLoop] at h
  | succ fu ih =>
    intro now a b rs ss h
    rw [runLoop] at h
    by_cases hd : deadline ≤ now
    · rw [if_pos hd] at h
      simp only [Option.some.injEq, Prod.mk.injEq] at h
      rcases h with ⟨h1, h2⟩
      subst h1
      subst h2
      refine ⟨rfl, by simp, ?_⟩
      intro _ i hi1 hi2
      simp only [List.length_nil] at hi2
      omega
    · rw [if_neg hd] at h
      dsimp only at h
      by_cases hs : sgn (a + 1) = true
      · rw [if_pos hs] at h
        simp only [Option.some.injEq, Prod.mk.injEq] at h
        rcases h with ⟨h1, h2⟩
        subst h1
        subst h2
        refine ⟨rfl, ?_, by simp⟩
        intro _
        simp only [List.length_singleton]
        exact ⟨hs, fun i hi1 hi2 => by omega⟩
      · rw [if_neg hs] at h
        rcases hr : runLoop deadline dur sgn fu
            (now + dur (a + 1) + ((delayFor (a + 1) b).1 - dur (a + 1))) (a + 1)
            (delayFor (a + 1) b).2 with _ | p
        · rw [hr] at h
          simp at h
        · rw [hr] at h
          rcases p with ⟨rs', ss'⟩
          simp only [Option.some.injEq, Prod.mk.injEq] at h
          rcases h with ⟨h1, h2⟩
          subst h1
          subst h2
          have hf : sgn (a + 1) = false := by
            revert hs
            cases sgn (a + 1) <;> simp
          rcases ih _ _ _ _ _ hr with ⟨hl, hsucc, hfail⟩
          refine ⟨hl, ?_, ?_⟩
          · intro hre
            rcases hsucc hre with ⟨hx, hy⟩
            simp only [List.length_cons]
            constructor
            · have : a + (ss'.length + 1) = a + 1 + ss'.length := by omega
              rw [this]
              exact hx
            · intro i hi1 hi2
              by_cases hia : i = a + 1
              · rw [hia]
                exact hf
              · exact hy i (by omega) (by omega)
          · intro hre i hi1 hi2
            by_cases hia : i = a + 1
            · rw [hia]
              exact hf
            · simp only [List.length_cons] at hi2
              exact hfail hre i (by omega) (by omega)

/-- Claim C5: every terminating run of the retry loop emits exactly one
Result: success exactly when the final attempt run is the first successful
one (all earlier attempts failed, and the loop stops right there, so no
attempt follows a success), and otherwise a single failure on observed
cancellation, with every attempt run having failed. -/
theorem coordinator_single_result (deadline : Nat) (dur : Nat → Nat)
    (sgn : Nat → Bool) (fuel now : Nat) (rs : List GoResult) (ss : List Nat)
    (h : runLoop deadline dur sgn fuel now 0 0 = some (rs, ss)) :
    rs.length = 1 ∧
    (rs = [GoResult.success] → sgn ss.length = true ∧
      ∀ i, 1 ≤ i → i < ss.length → sgn i = false) ∧
    (rs = [GoResult.ctxFailure] →
      ∀ i, 1 ≤ i → i ≤ ss.length → sgn i = false) := by
  rcases runLoop_spec deadline dur sgn fuel now 0 0 rs ss h with ⟨h1, h2, h3⟩
  refine ⟨h1, ?_, ?_⟩
  · intro hre
    rcases h2 hre with ⟨hx, hy⟩
    exact ⟨by simpa using hx, fun i hi1 hi2 => hy i (by omega) (by omega)⟩
  · intro hre i hi1 hi2
    exact h3 hre i (by omega) (by omega)

/-- Reference attempt duration oracle: every attempt takes 10 ms. -/
def witDur : Nat → Nat := fun _ => 10

/-- Reference outcome oracle: only attempt number 2 succeeds. -/
def witSgn : Nat → Bool := fun n => n == 2

/-- Reference outcome oracle: no attempt ever succeeds. -/
def witFail : Nat → Bool := fun _ => false

/-- Witness for C5: with a 250 ms deadline, 10 ms attempts and success on
attempt 2, the loop emits the single success result after exactly two
attempts, and attempt 1 indeed failed. -/
theorem coordinator_single_result_witness :
    ([GoResult.success] : List GoResult).length = 1 ∧ witSgn 1 = false := by
  have h := coordinator_single_result 250 witDur witSgn 251 0
    [GoResult.success] [0, 100] (by decide)
  exact ⟨h.1, (h.2.1 rfl).2 1 (by decide) (by decide)⟩

/-- If no attempt ever succeeds, the loop reaches the deadline and emits
the single deadline failure, every attempt having started strictly before
the deadline; stated with an existential over the recorded start instants. -/
theorem runLoop_never_succeeds (deadline : Nat) (dur : Nat → Nat)
    (sgn : Nat → Bool) (hs : ∀ n, sgn n = false) :
    ∀ fuel now a b, deadline - now < fuel →
      ∃ ss, runLoop deadline dur sgn fuel now a b =
          some ([GoResult.ctxFailure], ss) ∧
        ∀ s ∈ ss, s < deadline := by
  intro fuel
  induction fuel with
  | zero =>
    intro now a b hfu
    omega
  | succ fu ih =>
    intro now a b hfu
    rw [runLoop]
    by_cases hd : deadline ≤ now
    · rw [if_pos hd]
      exact ⟨[], rfl, by simp⟩
    · rw [if_neg hd]
      dsimp only
      rw [if_neg (by simp [hs])]
      have hadv : now + 1 ≤ now + dur (a + 1) + ((delayFor (a + 1) b).1 - dur (a + 1)) := by
        have := delayFor_pos (a + 1) b
        omega
      rcases ih (now + dur (a + 1) + ((delayFor (a + 1) b).1 - dur (a + 1)))
          (a + 1) (delayFor (a + 1) b).2 (by omega) with ⟨ss, hss, hlt⟩
      refine ⟨now :: ss, ?_, ?_⟩
      · rw [hss]
      · intro s hsmem
        rcases List.mem_cons.mp hsmem with h1 | h1
        · omega
        · exact hlt s h1

/-- Claim C4: a coordinator that never succeeds terminates once the
bounding window elapses: given fuel covering the window, the loop returns
(rather than running out), emits exactly the single failure Result carrying
the context's deadline cause, and every attempt it ran was started strictly
before the deadline — the expired deadline is observed at an iteration
boundary, never by interrupting an attempt in flight. -/
theorem coordinator_deadline_termination (deadline : Nat) (dur : Nat → Nat)
    (sgn : Nat → Bool) (fuel now : Nat) (hs : ∀ n, sgn n = false)
    (hfuel : deadline - now < fuel) :
    (runLoop deadline dur sgn fuel now 0 0).isSome = true ∧
    ∀ rs ss, runLoop deadline dur sgn fuel now 0 0 = some (rs, ss) →
      rs = [GoResult.ctxFailure] ∧ ∀ s ∈ ss, s < deadline := by
  rcases runLoop_never_succeeds deadline dur sgn hs fuel now 0 0 hfuel with
    ⟨ss, hss, hlt⟩
  refine ⟨by rw [hss]; rfl, ?_⟩
  intro rs ss' h
  rw [hss] at h
  simp only [Option.some.injEq, Prod.mk.injEq] at h
  rcases h with ⟨h1, h2⟩
  subst h1
  subst h2
  exact ⟨rfl, hlt⟩

/-- Witness for C4: 250 ms deadline, 10 ms attempts, nothing succeeds: the
loop terminates, and its third attempt (started at 200 ms) began before
the deadline. -/
theorem coordinator_deadline_termination_witness :
    (runLoop 250 witDur witFail 251 0 0 0).isSome = true ∧ (200 : Nat) < 250 := by
  have h := coordinator_deadline_termination 250 witDur witFail 251 0
    (fun n => rfl) (by decide)
  exact ⟨h.1, (h.2 [GoResult.ctxFailure] [0, 100, 200] (by decide)).2 200 (by decide)⟩

/-! ## Claim theorems: the waiting loop -/

/-- `NextDrop` is strictly in the future. -/
theorem NextDrop_gt (now : Nat) : now < NextDrop now := by
  simp only [NextDrop, dropOffsetMs, DropHourUTC, msPerHour, msPerDay]
  split <;> omega

/-- `NextDrop` is at least the drop offset into the epoch day. -/
theorem NextDrop_lower (now : Nat) : dropOffsetMs ≤ NextDrop now := by
  simp only [NextDrop, dropOffsetMs, DropHourUTC, msPerHour, msPerDay]
  split <;> omega

/-- `NextDrop` lands on the 04:00 UTC offset of its day. -/
theorem NextDrop_mod (now : Nat) : NextDrop now % msPerDay = dropOffsetMs := by
  simp only [NextDrop, dropOffsetMs, DropHourUTC, msPerHour, msPerDay]
  split <;> omega

/-- `NextDrop` is the least 04:00 UTC instant strictly after `now`. -/
theorem NextDrop_min (now t : Nat) (h1 : now < t)
    (h2 : t % msPerDay = dropOffsetMs) : NextDrop now ≤ t := by
  simp only [NextDrop, dropOffsetMs, DropHourUTC, msPerHour, msPerDay]
  simp only [dropOffsetMs, DropHourUTC, msPerHour, msPerDay] at h2
  split <;> omega

/-- As long as time has not passed the upcoming drop, recomputing
`NextDrop` yields the same instant. -/
theorem NextDrop_stable (now now' : Nat) (h1 : now ≤ now')
    (h2 : now' < NextDrop now) : NextDrop now' = NextDrop now := by
  have ha := NextDrop_gt now'
  have hb := NextDrop_mod now'
  have hc := NextDrop_mod now
  have hd := NextDrop_min now' (NextDrop now) h2 hc
  have he := NextDrop_min now (NextDrop now') (lt_of_le_of_lt h1 ha) hb
  omega

/-- Full description of the waiting loop: starting at or before the stable
`firstShot` instant `F`, with enough fuel, it sleeps the recheck interval
`(F - now) / TimeRecheckInterval` times and then, when a positive remainder
is left, one final precise sleep of exactly that remainder, finishing
exactly at `F`. -/
theorem waitPhase_spec (fuel : Nat) :
    ∀ now F, F = NextDrop now - preDroplead → now ≤ F →
      (F - now) / TimeRecheckInterval < fuel →
      waitPhase fuel now =
        some (List.replicate ((F - now) / TimeRecheckInterval)
            TimeRecheckInterval ++
          (if (F - now) % TimeRecheckInterval = 0 then []
            else [(F - now) % TimeRecheckInterval]), F) := by
  induction fuel with
  | zero =>
    intro now F hF hle hfu
    exact absurd hfu (Nat.not_lt_zero _)
  | succ fu ih =>
    intro now F hF hle hfu
    have hrc : TimeRecheckInterval = 600000 := rfl
    have hpre : preDroplead = 100 := rfl
    unfold waitPhase
    dsimp only
    rw [← hF]
    by_cases hw : F - now < TimeRecheckInterval
    · rw [if_pos hw]
      have hdiv : (F - now) / TimeRecheckInterval = 0 := Nat.div_eq_of_lt hw
      have hmod : (F - now) % TimeRecheckInterval = F - now := Nat.mod_eq_of_lt hw
      rw [hdiv, hmod]
      simp only [List.replicate_zero, List.nil_append]
      by_cases h0 : 0 < F - now
      · rw [if_pos h0, if_neg (by omega)]
        have hpls : now + (F - now) = F := by omega
        rw [hpls]
      · rw [if_neg h0, if_pos (by omega)]
        have hnf : now = F := by omega
        rw [hnf]
    · rw [if_neg hw]
      have hmin : min (F - now) TimeRecheckInterval = TimeRecheckInterval := by
        omega
      rw [hmin]
      have hgt := NextDrop_gt now
      have hlow := NextDrop_lower now
      have hoff : dropOffsetMs = 14400000 := rfl
      have hstab : NextDrop (now + TimeRecheckInterval) = NextDrop now := by
        apply NextDrop_stable
        · omega
        · omega
      have hF' : F = NextDrop (now + TimeRecheckInterval) - preDroplead := by
        rw [hstab]
        exact hF
      have hle' : now + TimeRecheckInterval ≤ F := by omega
      have hfu' : (F - (now + TimeRecheckInterval)) / TimeRecheckInterval < fu := by
        rw [hrc]
        rw [hrc] at hfu hw
        omega
      rw [ih (now + TimeRecheckInterval) F hF' hle' hfu']
      have hk : (F - now) / TimeRecheckInterval =
          (F - (now + TimeRecheckInterval)) / TimeRecheckInterval + 1 := by
        rw [hrc]
        rw [hrc] at hw
        omega
      have hm : (F - now) % TimeRecheckInterval =
          (F - (now + TimeRecheckInterval)) % TimeRecheckInterval := by
        rw [hrc]
        rw [hrc] at hw
        omega
      rw [hk, hm, List.replicate_succ, List.cons_append]

/-- Claim C8: with the `-now` override the scheduler starts immediately
with no sleeping at all; otherwise, while waiting it sleeps exactly the
recheck threshold per iteration, recomputing the trigger each time, and
once the remaining wait drops below the threshold it performs one final
precise sleep of exactly the remainder, starting the attempts exactly at
`firstShot = NextDrop now - preDroplead`. -/
theorem runWait_schedule (startNow : Bool) (fuel now : Nat) :
    (startNow = true → RunWait startNow fuel now = some ([], now)) ∧
    (startNow = false → now < NextDrop now - preDroplead →
      (NextDrop now - preDroplead - now) / TimeRecheckInterval < fuel →
      RunWait startNow fuel now =
        some (List.replicate
            ((NextDrop now - preDroplead - now) / TimeRecheckInterval)
            TimeRecheckInterval ++
          (if (NextDrop now - preDroplead - now) % TimeRecheckInterval = 0
            then []
            else [(NextDrop now - preDroplead - now) % TimeRecheckInterval]),
          NextDrop now - preDroplead)) := by
  constructor
  · intro h
    unfold RunWait
    rw [if_pos (by simp [h])]
  · intro h hlt hfu
    unfold RunWait
    rw [if_neg (by simp [h]), if_neg (by omega)]
    exact waitPhase_spec fuel now (NextDrop now - preDroplead) rfl (by omega) hfu

/-- Witness for C8: 25 minutes before the (lead-adjusted) drop instant of
the epoch day, the loop sleeps 10 min, 10 min, then exactly 5 min, ending
at the drop instant minus the lead; and with `-now` there is no waiting. -/
theorem runWait_schedule_witness :
    RunWait false 4 12899900 = some ([600000, 600000, 300000], 14399900) ∧
    RunWait true 0 12899900 = some ([], 12899900) := by
  constructor
  · have h := (runWait_schedule false 4 12899900).2 rfl (by decide) (by decide)
    exact h.trans (by rfl)
  · exact (runWait_schedule true 0 12899900).1 rfl

end Loopia
